import Mathlib

/-!
# gorpc: service registry and dispatch entry point (`service.go`)

A shallow embedding of `service.Register`, `service.Handle` and `addRspHeader`.

* Go `interface{}` values are elements of a type parameter `V`; the interceptor
  chain (`interceptor.ServerInterceptor`) is an element of a type parameter `I`.
* A nilable Go value is an `Option`: the `handlers` map (nil before the first
  `Register`), a `Handler` func value, the `opts` pointer, an `error`, a returned
  `[]byte`.
* The codec, the serialization, the registries and `proto.Marshal` /
  `proto.Unmarshal` live outside `service.go`; they are the fields of `Env`.
* `Handle` is effectful (it calls a handler, which may call back into `dec`). The
  embedding returns, next to the Go return values, the list of external calls made,
  in the order they are made.
* The stream record of a call is attached to the context by reference: a handler
  may write it, and `addRspHeader`, which runs after the handler, reads what the
  record holds then.
-/

namespace Gorpc

/-- Go `[]byte`. `Handle` only inspects the length of a frame. -/
abbrev Bytes := List (Fin 256)

/-- A non-nil Go `error` value, identified by its message. -/
structure Error where
  text : String
deriving DecidableEq, Repr

/-- Go `errors.New`. -/
def errorsNew (text : String) : Error := ⟨text⟩

/-- Modelled from the spec: the per-call record of package `stream` (method name,
return code, return message), whose declaration is not part of `service.go`.
`RetCode` is an `int32`; no arithmetic is done on it. -/
structure ServerStream where
  Method : String
  RetCode : Int
  RetMsg : String
deriving DecidableEq, Repr

/-- Modelled from the spec: the envelope `protocol.Request`. -/
structure Request where
  Payload : Bytes
deriving DecidableEq, Repr

/-- Modelled from the spec: the envelope `protocol.Response`. -/
structure Response where
  Payload : Bytes
  RetCode : Int
  RetMsg : String
deriving DecidableEq, Repr

/-- A `context.Context` as `service.go` can observe it at one moment: the stream
record attached to it, as the record stands at that moment, and what `ctx.Err()`
reports (`none` while the context is live, `Canceled` or `DeadlineExceeded`
afterwards). -/
structure Context where
  stream : ServerStream
  err : Option Error
  deadline : Option Nat
deriving DecidableEq, Repr

/-- Go `context.Canceled`. -/
def Canceled : Error := errorsNew "context canceled"

/-- Go `context.DeadlineExceeded`. -/
def DeadlineExceeded : Error := errorsNew "context deadline exceeded"

/-- Modelled from the spec: `stream.GetServerStream`, which reads the per-call
record attached to the context. -/
def GetServerStream (ctx : Context) : ServerStream := ctx.stream

/-- Modelled from the spec: the configured options of a service (address, network,
timeout, protocol id); `ServerOptions` is declared outside `service.go`. -/
structure ServerOptions where
  address : String
  network : String
  timeout : Nat
  protocol : String
deriving DecidableEq, Repr

/-- The interface `codec.Codec`: bytes to bytes, either direction may fail. -/
structure Codec where
  Encode : Bytes → Except Error Bytes
  Decode : Bytes → Except Error Bytes

/-- The interface `codec.Serialization`. `Unmarshal data target` fills the target
it is given and returns an error or nil: the result is the pair of the returned
error and the target afterwards. -/
structure Serialization (V : Type) where
  Marshal : V → Except Error Bytes
  Unmarshal : Bytes → V → Option Error × V

/-- The external functions `Handle` calls: the two registries of package `codec`
and the structured-message marshalling of the envelopes. -/
structure Env (V : Type) where
  GetCodec : String → Codec
  GetSerialization : String → Serialization V
  protoMarshal : Response → Except Error Bytes
  protoUnmarshal : Bytes → Except Error Request

/-- The body of a handler, as far as `Handle` is concerned: a handler either
returns `(rsp, err)`, or calls the decode callback on a target `req` and goes on
with the error the callback returned and the target as the callback left it, or
writes the stream record attached to its context (method, return code, return
message) and goes on. -/
inductive HandlerBody (V : Type) where
  | ret (rsp : V) (err : Option Error) : HandlerBody V
  | dec (req : V) (next : Option Error → V → HandlerBody V) : HandlerBody V
  | setStream (st : ServerStream) (next : HandlerBody V) : HandlerBody V

/-- A non-nil value of the Go type `Handler`: it receives the business object, the
context and the interceptor chain; the decode callback, its third Go argument, is
what the `dec` nodes of the body call. -/
abbrev HandlerFunc (V I : Type) := V → Context → I → HandlerBody V

/-- The Go type `Handler`; `none` is the nil func value. -/
abbrev Handler (V I : Type) := Option (HandlerFunc V I)

/-- Go `map[string]Handler`: `none` is the nil map, otherwise a finite map with
unique keys. -/
abbrev HandlerMap (V I : Type) := Option (AList (fun _ : String => Handler V I))

/-- Go `context.CancelFunc`, by identity. -/
abbrev CancelFunc := Nat

/-- The struct `service`. -/
structure service (V I : Type) where
  svr : V
  ctx : Option Context
  cancel : Option CancelFunc
  serviceName : String
  handlers : HandlerMap V I
  opts : Option ServerOptions
  ceps : I

/-- Go `v, ok := m[k]`: the entry stored under `k`, if there is one. Reading a nil
map finds nothing. -/
def mapEntry {V I : Type} (m : HandlerMap V I) (k : String) : Option (Handler V I) :=
  match m with
  | none => none
  | some m => m.lookup k

/-- Go `m[k]`: the entry stored under `k`, or the zero value (the nil func). -/
def mapIndex {V I : Type} (m : HandlerMap V I) (k : String) : Handler V I :=
  match mapEntry m k with
  | none => none
  | some h => h

/-- `service.Register`: allocate the map when it is still nil, then assign. -/
def service.Register {V I : Type} (s : service V I) (handlerName : String)
    (handler : Handler V I) : service V I :=
  let s1 : service V I :=
    match s.handlers with
    | none => { s with handlers := some ∅ }
    | some _ => s
  match s1.handlers with
  | none => s1
  | some m => { s1 with handlers := some (m.insert handlerName handler) }

/-- One external call made during a dispatch. -/
inductive Event (V I : Type) where
  | getCodec (protocol : String) : Event V I
  | getSerialization (protocol : String) : Event V I
  | handler (name : String) (svr : V) (ctx : Context) (ceps : I) : Event V I
  | codecDecode (frame : Bytes) : Event V I
  | protoUnmarshal (reqbuf : Bytes) : Event V I
  | serUnmarshal (payload : Bytes) (req : V) : Event V I
  | serMarshal (rsp : V) : Event V I
  | protoMarshal (response : Response) : Event V I
  | codecEncode (rspBuf : Bytes) : Event V I
deriving DecidableEq, Repr

/-- The stage an event belongs to. -/
inductive Stage where
  | lookup | invoke | decode | marshal | envelope | encode
deriving DecidableEq, Repr

/-- The stage of an event. -/
def Event.stage {V I : Type} : Event V I → Stage
  | .getCodec _ => .lookup
  | .getSerialization _ => .lookup
  | .handler _ _ _ _ => .invoke
  | .codecDecode _ => .decode
  | .protoUnmarshal _ => .decode
  | .serUnmarshal _ _ => .decode
  | .serMarshal _ => .marshal
  | .protoMarshal _ => .envelope
  | .codecEncode _ => .encode

/-- How a call of `Handle` ends: it returns `(bytes, error)`, or it panics on the
nil `opts` pointer. -/
inductive Outcome where
  | ret (rsp : Option Bytes) (err : Option Error) : Outcome
  | panic : Outcome
deriving DecidableEq, Repr

/-- The result of a dispatch: how it ended and the external calls it made. -/
structure Run (V I : Type) where
  out : Outcome
  trace : List (Event V I)

/-- The closure `dec` of `Handle`: codec decode of the frame, unmarshal into the
`Request` envelope, serialization unmarshal of the payload into `req`. Returns the
error, the target afterwards, and the calls made. -/
def dec {V I : Type} (E : Env V) (serverCodec : Codec)
    (serverSerialization : Serialization V) (frame : Bytes) (req : V) :
    (Option Error × V) × List (Event V I) :=
  match serverCodec.Decode frame with
  | .error err => ((some err, req), [.codecDecode frame])
  | .ok reqbuf =>
    match E.protoUnmarshal reqbuf with
    | .error err => ((some err, req), [.codecDecode frame, .protoUnmarshal reqbuf])
    | .ok request =>
      match serverSerialization.Unmarshal request.Payload req with
      | (some err, req1) =>
        ((some err, req1),
          [.codecDecode frame, .protoUnmarshal reqbuf, .serUnmarshal request.Payload req])
      | (none, req1) =>
        ((none, req1),
          [.codecDecode frame, .protoUnmarshal reqbuf, .serUnmarshal request.Payload req])

/-- Running a handler body against a decode callback: the returned `(rsp, err)`
and the calls the callback made, in order. -/
def HandlerBody.run {V I : Type} (d : V → (Option Error × V) × List (Event V I)) :
    HandlerBody V → (V × Option Error) × List (Event V I)
  | .ret rsp err => ((rsp, err), [])
  | .dec req next =>
    let r := d req
    let k := (next r.1.1 r.1.2).run d
    (k.1, r.2 ++ k.2)
  | .setStream _ next => next.run d

/-- Running a handler body against a decode callback, from a stream record `st`:
the stream record as the handler leaves it, which is what it last wrote, or `st`
when it wrote nothing. -/
def HandlerBody.stream {V I : Type} (d : V → (Option Error × V) × List (Event V I)) :
    HandlerBody V → ServerStream → ServerStream
  | .ret _ _, st => st
  | .dec req next, st =>
    let r := d req
    (next r.1.1 r.1.2).stream d st
  | .setStream st1 next, _ => next.stream d st1

/-- Running a handler body against a decode callback: the stream record the
handler wrote last, if it wrote one. -/
def HandlerBody.lastWrite {V I : Type} (d : V → (Option Error × V) × List (Event V I)) :
    HandlerBody V → Option ServerStream
  | .ret _ _ => none
  | .dec req next =>
    let r := d req
    (next r.1.1 r.1.2).lastWrite d
  | .setStream st next =>
    match next.lastWrite d with
    | some st1 => some st1
    | none => some st

/-- A handler body that never writes the stream record. -/
def HandlerBody.keepsStream {V : Type} : HandlerBody V → Prop
  | .ret _ _ => True
  | .dec _ next => ∀ err req, (next err req).keepsStream
  | .setStream _ _ => False

/-- `addRspHeader`: the response envelope takes its status from the stream of the
context, as the stream stands when `addRspHeader` is called. -/
def addRspHeader (ctx : Context) (payload : Bytes) : Response :=
  let serverStream := GetServerStream ctx
  { Payload := payload, RetCode := serverStream.RetCode, RetMsg := serverStream.RetMsg }

/-- `service.Handle`. The steps are those of the source, in its order: the length
check of the frame; the lookup `s.handlers[serverStream.Method]` and its nil check;
the two registry lookups, which read `s.opts.protocol` and so panic when `s.opts` is
nil; the call of the handler on `s.svr`, `ctx`, the closure `dec` and `s.ceps`; then
`Marshal`, `addRspHeader`, `proto.Marshal` and `Encode`, each with its early
return. `addRspHeader ctx payload` runs after the handler and calls
`stream.GetServerStream(ctx)` again: `ctx1` is the context at that moment, with the
stream record as the handler left it. The registries are taken to return an
implementation for every protocol id. -/
def service.Handle {V I : Type} (E : Env V) (s : service V I) (ctx : Context)
    (frame : Bytes) : Run V I :=
  if frame.length = 0 then
    ⟨.ret none (some (errorsNew "req is nil")), []⟩
  else
    let serverStream := GetServerStream ctx
    match mapIndex s.handlers serverStream.Method with
    | none => ⟨.ret none (some (errorsNew "handlers is nil")), []⟩
    | some handler =>
      match s.opts with
      | none => ⟨.panic, []⟩
      | some opts =>
        let serverCodec := E.GetCodec opts.protocol
        let serverSerialization := E.GetSerialization opts.protocol
        let t0 : List (Event V I) :=
          [.getCodec opts.protocol, .getSerialization opts.protocol,
            .handler serverStream.Method s.svr ctx s.ceps]
        let d : V → (Option Error × V) × List (Event V I) :=
          dec E serverCodec serverSerialization frame
        let r := (handler s.svr ctx s.ceps).run d
        let ctx1 : Context :=
          { ctx with stream := (handler s.svr ctx s.ceps).stream d serverStream }
        match r.1 with
        | (_, some err) => ⟨.ret none (some err), t0 ++ r.2⟩
        | (rsp, none) =>
          match serverSerialization.Marshal rsp with
          | .error err => ⟨.ret none (some err), t0 ++ r.2 ++ [.serMarshal rsp]⟩
          | .ok payload =>
            let response := addRspHeader ctx1 payload
            match E.protoMarshal response with
            | .error err =>
              ⟨.ret none (some err), t0 ++ r.2 ++ [.serMarshal rsp, .protoMarshal response]⟩
            | .ok rspBuf =>
              match serverCodec.Encode rspBuf with
              | .error err =>
                ⟨.ret none (some err),
                  t0 ++ r.2 ++ [.serMarshal rsp, .protoMarshal response, .codecEncode rspBuf]⟩
              | .ok rspbody =>
                ⟨.ret (some rspbody) none,
                  t0 ++ r.2 ++ [.serMarshal rsp, .protoMarshal response, .codecEncode rspBuf]⟩

/-! ## Concrete components used to evaluate the definitions -/

/-- A codec that frames a message with one leading marker byte. -/
def framedCodec : Codec where
  Encode := fun b => .ok (0x7e :: b)
  Decode := fun b =>
    match b with
    | 0x7e :: rest => .ok rest
    | _ => .error (errorsNew "bad frame")

/-- A codec that leaves the bytes as they are. -/
def plainCodec : Codec where
  Encode := fun b => .ok b
  Decode := fun b => .ok b

/-- A codec whose `Decode` always fails. -/
def brokenCodec : Codec where
  Encode := fun b => .ok b
  Decode := fun _ => .error (errorsNew "decode failed")

/-- The bytes of a string of one-byte characters. -/
def stringBytes (v : String) : Bytes := v.toList.map (fun c => Fin.ofNat c.toNat)

/-- The string whose characters are the given bytes. -/
def bytesString (b : Bytes) : String := String.mk (b.map (fun x => Char.ofNat x.val))

/-- A serialization of strings as their bytes. -/
def stringSerialization : Serialization String where
  Marshal := fun v => .ok (stringBytes v)
  Unmarshal := fun b _ => (none, bytesString b)

/-- Envelope marshalling of a `Request` in the manner of protobuf: an empty payload
takes no bytes, any other payload is written as tag, length, bytes. -/
def marshalRequest (r : Request) : Except Error Bytes :=
  match r.Payload with
  | [] => .ok []
  | p => .ok (0x0a :: Fin.ofNat p.length :: p)

/-- Envelope unmarshalling of a `Request`, the inverse of `marshalRequest`. -/
def unmarshalRequest (b : Bytes) : Except Error Request :=
  match b with
  | [] => .ok ⟨[]⟩
  | 0x0a :: n :: p => if n.val = p.length then .ok ⟨p⟩ else .error (errorsNew "truncated")
  | _ => .error (errorsNew "bad tag")

/-- Envelope marshalling of a `Response`: return code, message length, message,
payload. -/
def marshalResponse (r : Response) : Except Error Bytes :=
  .ok (Fin.ofNat r.RetCode.toNat :: Fin.ofNat r.RetMsg.length :: (stringBytes r.RetMsg ++ r.Payload))

/-- Envelope unmarshalling of a `Response`, the inverse of `marshalResponse`. -/
def unmarshalResponse (b : Bytes) : Except Error Response :=
  match b with
  | c :: n :: rest =>
    if n.val ≤ rest.length then
      .ok ⟨rest.drop n.val, (c.val : Int), bytesString (rest.take n.val)⟩
    else .error (errorsNew "truncated")
  | _ => .error (errorsNew "truncated")

/-- An environment with one codec and the string serialization under every
protocol id. -/
def demoEnv (c : Codec) : Env String where
  GetCodec := fun _ => c
  GetSerialization := fun _ => stringSerialization
  protoMarshal := marshalResponse
  protoUnmarshal := unmarshalRequest

/-- A handler that decodes its input and returns it unchanged; a decode error is
returned as the handler's error. -/
def echoHandler {V I : Type} (zero : V) : HandlerFunc V I :=
  fun _ _ _ => .dec zero (fun err req =>
    match err with
    | some e => .ret zero (some e)
    | none => .ret req none)

/-- A handler that always returns an application error, without decoding. -/
def failHandler {V I : Type} (zero : V) (e : Error) : HandlerFunc V I :=
  fun _ _ _ => .ret zero (some e)

/-- A handler that calls the decode callback, ignores the error it returns, and
answers with a fixed result. -/
def carelessHandler {V I : Type} (zero rsp : V) : HandlerFunc V I :=
  fun _ _ _ => .dec zero (fun _ _ => .ret rsp none)

/-- A handler that decodes its input, writes the status 7, "late" into the stream
record of its context, and returns the input. -/
def markingHandler {V I : Type} (zero : V) : HandlerFunc V I :=
  fun _ ctx _ => .dec zero (fun err req =>
    match err with
    | some e => .ret zero (some e)
    | none => .setStream { ctx.stream with RetCode := 7, RetMsg := "late" } (.ret req none))

/-- Options naming the protocol `"proto"`. -/
def demoOpts : ServerOptions :=
  { address := "127.0.0.1:8000", network := "tcp", timeout := 1000, protocol := "proto" }

/-- A service that has not registered anything and has not been served. -/
def newService : service String (List String) :=
  { svr := "svr", ctx := none, cancel := none, serviceName := "demo", handlers := none,
    opts := none, ceps := ["recover"] }

/-- A served service with `echoHandler` under `"Echo"` and `failHandler` under
`"Fail"`. -/
def demoService : service String (List String) :=
  { ((newService.Register "Echo" (some (echoHandler ""))).Register "Fail"
      (some (failHandler "" (errorsNew "boom")))) with opts := some demoOpts }

/-- A live context resolved to the given method, with a zero status. -/
def callCtx (method : String) : Context :=
  { stream := { Method := method, RetCode := 0, RetMsg := "" }, err := none, deadline := none }

/-- A served service on which `Register "Nil" nil` has been called. -/
def nilService : service String (List String) :=
  { (newService.Register "Nil" none) with opts := some demoOpts }

/-- A service with `echoHandler` registered that has not been served: `opts` is
still nil. -/
def unservedService : service String (List String) :=
  newService.Register "Echo" (some (echoHandler ""))

/-- A served service with `markingHandler` under "Mark". -/
def markingService : service String (List String) :=
  { (newService.Register "Mark" (some (markingHandler ""))) with opts := some demoOpts }

/-- A live context resolved to "Echo" whose stream carries the status 5, "busy". -/
def busyCtx : Context :=
  { stream := { Method := "Echo", RetCode := 5, RetMsg := "busy" }, err := none,
    deadline := none }

/-- A context resolved to "Echo" that is already canceled. -/
def canceledCtx : Context :=
  { stream := { Method := "Echo", RetCode := 0, RetMsg := "" }, err := some Canceled,
    deadline := none }

/-- A context resolved to "Echo" whose deadline has passed. -/
def expiredCtx : Context :=
  { stream := { Method := "Echo", RetCode := 0, RetMsg := "" },
    err := some DeadlineExceeded, deadline := some 0 }

/-- The frame `framedCodec.Encode (marshalRequest (Request "hi"))`. -/
def hiFrame : Bytes := [0x7e, 0x0a, 2, 104, 105]

/-- A serialization whose `Unmarshal` always fails and leaves the target alone. -/
def refusingSerialization : Serialization String where
  Marshal := fun v => .ok (stringBytes v)
  Unmarshal := fun _ req => (some (errorsNew "decode failed"), req)

/-- An environment with the given codec and serialization under every protocol
id. -/
def demoEnvWith (c : Codec) (ser : Serialization String) : Env String where
  GetCodec := fun _ => c
  GetSerialization := fun _ => ser
  protoMarshal := marshalResponse
  protoUnmarshal := unmarshalRequest

/-- A served service with `carelessHandler` under "Careless". -/
def carelessService : service String (List String) :=
  { (newService.Register "Careless" (some (carelessHandler "" "done"))) with
    opts := some demoOpts }

/-- The frame `plainCodec.Encode (marshalRequest (Request "hi"))`. -/
def plainHiFrame : Bytes := [0x0a, 2, 104, 105]

/-! ## Vocabulary of the statements -/

/-- The calls `Handle` makes up to and including the call of the handler, for
options `o`. -/
def opening {V I : Type} (s : service V I) (ctx : Context) (o : ServerOptions) :
    List (Event V I) :=
  [.getCodec o.protocol, .getSerialization o.protocol,
    .handler (GetServerStream ctx).Method s.svr ctx s.ceps]

/-- The handler `h` called as `Handle` calls it: on the business object, the context
and the interceptor chain of the service, with the closure `dec` over the frame as
its decode callback. -/
def invoke {V I : Type} (E : Env V) (s : service V I) (ctx : Context) (frame : Bytes)
    (h : HandlerFunc V I) (o : ServerOptions) : (V × Option Error) × List (Event V I) :=
  (h s.svr ctx s.ceps).run
    (dec E (E.GetCodec o.protocol) (E.GetSerialization o.protocol) frame)

/-- The decode callback `Handle` passes to the handler, for options `o`: the closure
`dec` over the codec and the serialization registered for the protocol of `o`, and
over the frame. -/
def callback {V : Type} (I : Type) (E : Env V) (o : ServerOptions) (frame : Bytes)
    (req : V) : (Option Error × V) × List (Event V I) :=
  dec E (E.GetCodec o.protocol) (E.GetSerialization o.protocol) frame req

/-- The stream record of the context when the handler `h`, called as `Handle` calls
it, has returned. -/
def streamAfter {V I : Type} (E : Env V) (s : service V I) (ctx : Context) (frame : Bytes)
    (h : HandlerFunc V I) (o : ServerOptions) : ServerStream :=
  (h s.svr ctx s.ceps).stream (callback I E o frame) (GetServerStream ctx)

/-- The context when the handler `h`, called as `Handle` calls it, has returned:
the same context, with its stream record as the handler left it. -/
def ctxAfter {V I : Type} (E : Env V) (s : service V I) (ctx : Context) (frame : Bytes)
    (h : HandlerFunc V I) (o : ServerOptions) : Context :=
  { ctx with stream := streamAfter E s ctx frame h o }

/-- The calls of handlers in a trace. -/
def handlerCalls {V I : Type} (t : List (Event V I)) : List (Event V I) :=
  t.filter (fun e => decide (e.stage = Stage.invoke))

/-- The stages of the calls in a trace that are not calls of the decode pipeline. -/
def stagesOutsideDecode {V I : Type} (t : List (Event V I)) : List Stage :=
  (t.map Event.stage).filter (fun st => decide (st ≠ Stage.decode))

/-- The calls of the decode pipeline in a trace. -/
def decodeCalls {V I : Type} (t : List (Event V I)) : List (Event V I) :=
  t.filter (fun e => decide (e.stage = Stage.decode))

/-- The frame a client sends for the value `v`:
`Encode (marshalEnvelope (Request (Marshal v)))`. -/
def requestFrame {V : Type} (c : Codec) (ser : Serialization V)
    (marshalEnvelope : Request → Except Error Bytes) (v : V) : Except Error Bytes :=
  (ser.Marshal v).bind (fun payload =>
    (marshalEnvelope { Payload := payload }).bind c.Encode)

/-- What a client reads from a returned frame: codec `Decode`, then envelope
unmarshal. -/
def readResponse (c : Codec) (unmarshalEnvelope : Bytes → Except Error Response)
    (rspbody : Bytes) : Except Error Response :=
  (c.Decode rspbody).bind unmarshalEnvelope

/-! ## Lemmas on the paths through `Handle` -/

theorem callback_eq {V : Type} (I : Type) (E : Env V) (o : ServerOptions) (frame : Bytes) :
    (callback I E o frame : V → (Option Error × V) × List (Event V I)) =
      dec E (E.GetCodec o.protocol) (E.GetSerialization o.protocol) frame := rfl

theorem run_trace_decode {V I : Type} (d : V → (Option Error × V) × List (Event V I))
    (hd : ∀ req, ∀ e ∈ (d req).2, e.stage = Stage.decode) (b : HandlerBody V) :
    ∀ e ∈ (b.run d).2, e.stage = Stage.decode := by
  induction b with
  | ret rsp err => intro e he; simp [HandlerBody.run] at he
  | dec req next ih =>
    intro e he
    simp only [HandlerBody.run, List.mem_append] at he
    rcases he with he | he
    · exact hd req e he
    · exact ih _ _ e he
  | setStream st next ih =>
    intro e he
    simp only [HandlerBody.run] at he
    exact ih e he

theorem stream_of_keepsStream {V I : Type} (d : V → (Option Error × V) × List (Event V I))
    (b : HandlerBody V) (hb : b.keepsStream) (st : ServerStream) : b.stream d st = st := by
  induction b with
  | ret rsp err => rfl
  | dec req next ih =>
    simp only [HandlerBody.stream]
    exact ih _ _ (hb _ _)
  | setStream st1 next _ => exact absurd hb (by simp [HandlerBody.keepsStream])

theorem dec_trace_decode {V I : Type} (E : Env V) (c : Codec) (ser : Serialization V)
    (frame : Bytes) (req : V) :
    ∀ e ∈ (dec E c ser frame req : (Option Error × V) × List (Event V I)).2,
      e.stage = Stage.decode := by
  intro e he
  unfold dec at he
  split at he
  · simp at he; subst he; rfl
  · split at he
    · simp at he; rcases he with he | he <;> subst he <;> rfl
    · split at he <;> simp at he <;> rcases he with he | he | he <;> subst he <;> rfl

theorem invoke_trace_decode {V I : Type} (E : Env V) (s : service V I) (ctx : Context)
    (frame : Bytes) (h : HandlerFunc V I) (o : ServerOptions) :
    ∀ e ∈ (invoke E s ctx frame h o).2, e.stage = Stage.decode :=
  run_trace_decode _ (fun req => dec_trace_decode E _ _ frame req) _

theorem Handle_of_handler_error {V I : Type} (E : Env V) (s : service V I) (ctx : Context)
    (frame : Bytes) (h : HandlerFunc V I) (o : ServerOptions) (rsp : V) (e : Error)
    (hf : frame.length ≠ 0)
    (hh : mapIndex s.handlers (GetServerStream ctx).Method = some h)
    (ho : s.opts = some o)
    (hr : (invoke E s ctx frame h o).1 = (rsp, some e)) :
    s.Handle E ctx frame =
      ⟨.ret none (some e), opening s ctx o ++ (invoke E s ctx frame h o).2⟩ := by
  unfold invoke at hr
  simp [service.Handle, hf, hh, ho, hr, opening, invoke]

theorem Handle_of_marshal_error {V I : Type} (E : Env V) (s : service V I) (ctx : Context)
    (frame : Bytes) (h : HandlerFunc V I) (o : ServerOptions) (rsp : V) (e : Error)
    (hf : frame.length ≠ 0)
    (hh : mapIndex s.handlers (GetServerStream ctx).Method = some h)
    (ho : s.opts = some o)
    (hr : (invoke E s ctx frame h o).1 = (rsp, none))
    (hm : (E.GetSerialization o.protocol).Marshal rsp = .error e) :
    s.Handle E ctx frame =
      ⟨.ret none (some e),
        opening s ctx o ++ (invoke E s ctx frame h o).2 ++ [.serMarshal rsp]⟩ := by
  unfold invoke at hr
  simp [service.Handle, hf, hh, ho, hr, hm, opening, invoke]

theorem Handle_of_envelope_error {V I : Type} (E : Env V) (s : service V I) (ctx : Context)
    (frame : Bytes) (h : HandlerFunc V I) (o : ServerOptions) (rsp : V) (e : Error)
    (payload : Bytes)
    (hf : frame.length ≠ 0)
    (hh : mapIndex s.handlers (GetServerStream ctx).Method = some h)
    (ho : s.opts = some o)
    (hr : (invoke E s ctx frame h o).1 = (rsp, none))
    (hm : (E.GetSerialization o.protocol).Marshal rsp = .ok payload)
    (hp : E.protoMarshal (addRspHeader (ctxAfter E s ctx frame h o) payload) = .error e) :
    s.Handle E ctx frame =
      ⟨.ret none (some e),
        opening s ctx o ++ (invoke E s ctx frame h o).2 ++
          [.serMarshal rsp, .protoMarshal (addRspHeader (ctxAfter E s ctx frame h o) payload)]⟩ := by
  unfold invoke at hr
  simp only [ctxAfter, streamAfter, callback_eq] at hp
  simp [service.Handle, hf, hh, ho, hr, hm, hp, opening, invoke, ctxAfter, streamAfter,
    callback_eq]

theorem Handle_of_encode_error {V I : Type} (E : Env V) (s : service V I) (ctx : Context)
    (frame : Bytes) (h : HandlerFunc V I) (o : ServerOptions) (rsp : V) (e : Error)
    (payload rspBuf : Bytes)
    (hf : frame.length ≠ 0)
    (hh : mapIndex s.handlers (GetServerStream ctx).Method = some h)
    (ho : s.opts = some o)
    (hr : (invoke E s ctx frame h o).1 = (rsp, none))
    (hm : (E.GetSerialization o.protocol).Marshal rsp = .ok payload)
    (hp : E.protoMarshal (addRspHeader (ctxAfter E s ctx frame h o) payload) = .ok rspBuf)
    (hc : (E.GetCodec o.protocol).Encode rspBuf = .error e) :
    s.Handle E ctx frame =
      ⟨.ret none (some e),
        opening s ctx o ++ (invoke E s ctx frame h o).2 ++
          [.serMarshal rsp, .protoMarshal (addRspHeader (ctxAfter E s ctx frame h o) payload), .codecEncode rspBuf]⟩ := by
  unfold invoke at hr
  simp only [ctxAfter, streamAfter, callback_eq] at hp
  simp [service.Handle, hf, hh, ho, hr, hm, hp, hc, opening, invoke, ctxAfter, streamAfter,
    callback_eq]

theorem Handle_of_success {V I : Type} (E : Env V) (s : service V I) (ctx : Context)
    (frame : Bytes) (h : HandlerFunc V I) (o : ServerOptions) (rsp : V)
    (payload rspBuf rspbody : Bytes)
    (hf : frame.length ≠ 0)
    (hh : mapIndex s.handlers (GetServerStream ctx).Method = some h)
    (ho : s.opts = some o)
    (hr : (invoke E s ctx frame h o).1 = (rsp, none))
    (hm : (E.GetSerialization o.protocol).Marshal rsp = .ok payload)
    (hp : E.protoMarshal (addRspHeader (ctxAfter E s ctx frame h o) payload) = .ok rspBuf)
    (hc : (E.GetCodec o.protocol).Encode rspBuf = .ok rspbody) :
    s.Handle E ctx frame =
      ⟨.ret (some rspbody) none,
        opening s ctx o ++ (invoke E s ctx frame h o).2 ++
          [.serMarshal rsp, .protoMarshal (addRspHeader (ctxAfter E s ctx frame h o) payload), .codecEncode rspBuf]⟩ := by
  unfold invoke at hr
  simp only [ctxAfter, streamAfter, callback_eq] at hp
  simp [service.Handle, hf, hh, ho, hr, hm, hp, hc, opening, invoke, ctxAfter, streamAfter,
    callback_eq]

theorem Handle_dispatch_shape {V I : Type} (E : Env V) (s : service V I) (ctx : Context)
    (frame : Bytes) (h : HandlerFunc V I) (o : ServerOptions)
    (hf : frame.length ≠ 0)
    (hh : mapIndex s.handlers (GetServerStream ctx).Method = some h)
    (ho : s.opts = some o) :
    ∃ post : List (Event V I),
      (s.Handle E ctx frame).trace =
        opening s ctx o ++ (invoke E s ctx frame h o).2 ++ post ∧
      post.map Event.stage <+: [Stage.marshal, Stage.envelope, Stage.encode] := by
  rcases hr : (invoke E s ctx frame h o).1 with ⟨rsp, _ | e⟩
  · cases hm : (E.GetSerialization o.protocol).Marshal rsp with
    | error e =>
      rw [Handle_of_marshal_error E s ctx frame h o rsp e hf hh ho hr hm]
      exact ⟨[.serMarshal rsp], rfl, ⟨[Stage.envelope, Stage.encode], rfl⟩⟩
    | ok payload =>
      cases hp : E.protoMarshal (addRspHeader (ctxAfter E s ctx frame h o) payload) with
      | error e =>
        rw [Handle_of_envelope_error E s ctx frame h o rsp e payload hf hh ho hr hm hp]
        exact ⟨[.serMarshal rsp, .protoMarshal (addRspHeader (ctxAfter E s ctx frame h o) payload)], rfl,
          ⟨[Stage.encode], rfl⟩⟩
      | ok rspBuf =>
        cases hc : (E.GetCodec o.protocol).Encode rspBuf with
        | error e =>
          rw [Handle_of_encode_error E s ctx frame h o rsp e payload rspBuf hf hh ho hr hm hp hc]
          exact ⟨[.serMarshal rsp, .protoMarshal (addRspHeader (ctxAfter E s ctx frame h o) payload),
            .codecEncode rspBuf], rfl, ⟨[], rfl⟩⟩
        | ok rspbody =>
          rw [Handle_of_success E s ctx frame h o rsp payload rspBuf rspbody hf hh ho hr hm hp hc]
          exact ⟨[.serMarshal rsp, .protoMarshal (addRspHeader (ctxAfter E s ctx frame h o) payload),
            .codecEncode rspBuf], rfl, ⟨[], rfl⟩⟩
  · rw [Handle_of_handler_error E s ctx frame h o rsp e hf hh ho hr]
    exact ⟨[], by simp, ⟨_, rfl⟩⟩

theorem closing_stage {V I : Type} (post : List (Event V I))
    (hp : post.map Event.stage <+: [Stage.marshal, Stage.envelope, Stage.encode]) :
    ∀ e ∈ post, e.stage = Stage.marshal ∨ e.stage = Stage.envelope ∨ e.stage = Stage.encode := by
  intro e he
  have hmem : e.stage ∈ [Stage.marshal, Stage.envelope, Stage.encode] :=
    hp.subset (List.mem_map_of_mem Event.stage he)
  simpa using hmem

theorem handlerCalls_dispatch {V I : Type} (s : service V I) (ctx : Context)
    (o : ServerOptions) (mid post : List (Event V I))
    (hmid : ∀ e ∈ mid, e.stage = Stage.decode)
    (hpost : ∀ e ∈ post,
      e.stage = Stage.marshal ∨ e.stage = Stage.envelope ∨ e.stage = Stage.encode) :
    handlerCalls (opening s ctx o ++ mid ++ post) =
      [Event.handler (GetServerStream ctx).Method s.svr ctx s.ceps] := by
  have h1 : mid.filter (fun e => decide (e.stage = Stage.invoke)) = [] := by
    rw [List.filter_eq_nil_iff]
    intro e he
    simp [hmid e he]
  have h2 : post.filter (fun e => decide (e.stage = Stage.invoke)) = [] := by
    rw [List.filter_eq_nil_iff]
    intro e he
    rcases hpost e he with h | h | h <;> simp [h]
  simp only [handlerCalls, List.filter_append, h1, h2, List.append_nil]
  rfl

theorem stages_dispatch {V I : Type} (s : service V I) (ctx : Context)
    (o : ServerOptions) (mid post : List (Event V I))
    (hmid : ∀ e ∈ mid, e.stage = Stage.decode)
    (hpost : ∀ e ∈ post,
      e.stage = Stage.marshal ∨ e.stage = Stage.envelope ∨ e.stage = Stage.encode) :
    stagesOutsideDecode (opening s ctx o ++ mid ++ post) =
      [Stage.lookup, Stage.lookup, Stage.invoke] ++ post.map Event.stage := by
  have h1 : (mid.map Event.stage).filter (fun st => decide (st ≠ Stage.decode)) = [] := by
    rw [List.filter_eq_nil_iff]
    intro st hst
    rcases List.mem_map.1 hst with ⟨e, he, rfl⟩
    simp [hmid e he]
  have h2 : (post.map Event.stage).filter (fun st => decide (st ≠ Stage.decode)) =
      post.map Event.stage := by
    rw [List.filter_eq_self]
    intro st hst
    rcases List.mem_map.1 hst with ⟨e, he, rfl⟩
    rcases hpost e he with h | h | h <;> simp [h]
  simp only [stagesOutsideDecode, List.map_append, List.filter_append, h1, h2]
  simp [opening, Event.stage]

theorem mapEntry_Register_self {V I : Type} (s : service V I) (name : String)
    (handler : Handler V I) :
    mapEntry (s.Register name handler).handlers name = some handler := by
  cases hm : s.handlers <;> simp only [service.Register, hm, mapEntry] <;>
    exact AList.lookup_insert _

theorem mapEntry_Register_other {V I : Type} (s : service V I) (name other : String)
    (handler : Handler V I) (hne : other ≠ name) :
    mapEntry (s.Register name handler).handlers other = mapEntry s.handlers other := by
  cases hm : s.handlers <;> simp only [service.Register, hm, mapEntry] <;>
    rw [AList.lookup_insert_ne hne]
  exact AList.lookup_empty other

theorem mapIndex_of_entry {V I : Type} (m : HandlerMap V I) (k : String)
    (h : Handler V I) (he : mapEntry m k = some h) : mapIndex m k = h := by
  simp [mapIndex, he]

theorem Handle_congr {V I : Type} (E : Env V) (s t : service V I) (ctx : Context)
    (frame : Bytes)
    (hh : mapIndex s.handlers (GetServerStream ctx).Method =
      mapIndex t.handlers (GetServerStream ctx).Method)
    (ho : s.opts = t.opts) (hs : s.svr = t.svr) (hc : s.ceps = t.ceps) :
    s.Handle E ctx frame = t.Handle E ctx frame := by
  simp only [service.Handle, hh, ho, hs, hc]

theorem decodeCalls_dispatch {V I : Type} (s : service V I) (ctx : Context)
    (o : ServerOptions) (mid post : List (Event V I))
    (hmid : ∀ e ∈ mid, e.stage = Stage.decode)
    (hpost : ∀ e ∈ post,
      e.stage = Stage.marshal ∨ e.stage = Stage.envelope ∨ e.stage = Stage.encode) :
    decodeCalls (opening s ctx o ++ mid ++ post) = mid := by
  have h1 : mid.filter (fun e => decide (e.stage = Stage.decode)) = mid := by
    rw [List.filter_eq_self]
    intro e he
    simp [hmid e he]
  have h2 : post.filter (fun e => decide (e.stage = Stage.decode)) = [] := by
    rw [List.filter_eq_nil_iff]
    intro e he
    rcases hpost e he with h | h | h <;> simp [h]
  simp only [decodeCalls, List.filter_append, h1, h2, List.append_nil]
  rfl

theorem Handle_of_nil_handler {V I : Type} (E : Env V) (s : service V I) (ctx : Context)
    (frame : Bytes) (hf : frame.length ≠ 0)
    (hh : mapIndex s.handlers (GetServerStream ctx).Method = none) :
    s.Handle E ctx frame = ⟨.ret none (some (errorsNew "handlers is nil")), []⟩ := by
  simp [service.Handle, hf, hh]

theorem Handle_of_nil_opts {V I : Type} (E : Env V) (s : service V I) (ctx : Context)
    (frame : Bytes) (h : HandlerFunc V I) (hf : frame.length ≠ 0)
    (hh : mapIndex s.handlers (GetServerStream ctx).Method = some h)
    (ho : s.opts = none) :
    s.Handle E ctx frame = ⟨.panic, []⟩ := by
  simp [service.Handle, hf, hh, ho]

theorem Handle_out_cases {V I : Type} (E : Env V) (s : service V I) (ctx : Context)
    (frame : Bytes) :
    (∃ e, (s.Handle E ctx frame).out = .ret none (some e)) ∨
    (∃ b, (s.Handle E ctx frame).out = .ret (some b) none) ∨
    (s.Handle E ctx frame).out = .panic := by
  by_cases hf : frame.length = 0
  · exact Or.inl ⟨errorsNew "req is nil", by simp [service.Handle, hf]⟩
  · cases hh : mapIndex s.handlers (GetServerStream ctx).Method with
    | none =>
      exact Or.inl ⟨errorsNew "handlers is nil", by
        rw [Handle_of_nil_handler E s ctx frame hf hh]⟩
    | some h =>
      cases ho : s.opts with
      | none => exact Or.inr (Or.inr (by rw [Handle_of_nil_opts E s ctx frame h hf hh ho]))
      | some o =>
        rcases hr : (invoke E s ctx frame h o).1 with ⟨rsp, _ | e⟩
        · cases hm : (E.GetSerialization o.protocol).Marshal rsp with
          | error e =>
            exact Or.inl ⟨e, by
              rw [Handle_of_marshal_error E s ctx frame h o rsp e hf hh ho hr hm]⟩
          | ok payload =>
            cases hp : E.protoMarshal (addRspHeader (ctxAfter E s ctx frame h o) payload) with
            | error e =>
              exact Or.inl ⟨e, by
                rw [Handle_of_envelope_error E s ctx frame h o rsp e payload hf hh ho hr hm hp]⟩
            | ok rspBuf =>
              cases hc : (E.GetCodec o.protocol).Encode rspBuf with
              | error e =>
                exact Or.inl ⟨e, by
                  rw [Handle_of_encode_error E s ctx frame h o rsp e payload rspBuf
                    hf hh ho hr hm hp hc]⟩
              | ok rspbody =>
                exact Or.inr (Or.inl ⟨rspbody, by
                  rw [Handle_of_success E s ctx frame h o rsp payload rspBuf rspbody
                    hf hh ho hr hm hp hc]⟩)
        · exact Or.inl ⟨e, by rw [Handle_of_handler_error E s ctx frame h o rsp e hf hh ho hr]⟩

theorem Handle_error_no_bytes {V I : Type} (E : Env V) (s : service V I) (ctx : Context)
    (frame : Bytes) (b : Option Bytes) (e : Error)
    (hout : (s.Handle E ctx frame).out = .ret b (some e)) : b = none := by
  rcases Handle_out_cases E s ctx frame with ⟨e1, h1⟩ | ⟨b1, h1⟩ | h1
  · rw [h1] at hout
    injection hout with hb _
    exact hb.symm
  · rw [h1] at hout
    injection hout with _ he
    cases he
  · rw [h1] at hout
    cases hout

theorem Handle_stage_order {V I : Type} (E : Env V) (s : service V I) (ctx : Context)
    (frame : Bytes) :
    stagesOutsideDecode (s.Handle E ctx frame).trace <+:
      [Stage.lookup, Stage.lookup, Stage.invoke, Stage.marshal, Stage.envelope,
        Stage.encode] := by
  by_cases hf : frame.length = 0
  · simp [service.Handle, hf, stagesOutsideDecode]
  · cases hh : mapIndex s.handlers (GetServerStream ctx).Method with
    | none => simp [Handle_of_nil_handler E s ctx frame hf hh, stagesOutsideDecode]
    | some h =>
      cases ho : s.opts with
      | none => simp [Handle_of_nil_opts E s ctx frame h hf hh ho, stagesOutsideDecode]
      | some o =>
        obtain ⟨post, ht, hp⟩ := Handle_dispatch_shape E s ctx frame h o hf hh ho
        rw [ht, stages_dispatch s ctx o _ post (invoke_trace_decode E s ctx frame h o)
          (closing_stage post hp)]
        exact (List.prefix_append_right_inj
          [Stage.lookup, Stage.lookup, Stage.invoke]).2 hp

theorem mem_dispatch_stage {V I : Type} (s : service V I) (ctx : Context)
    (o : ServerOptions) (mid post : List (Event V I))
    (hmid : ∀ e ∈ mid, e.stage = Stage.decode) (ev : Event V I)
    (hev : ev ∈ opening s ctx o ++ mid ++ post) :
    ev.stage = Stage.lookup ∨ ev.stage = Stage.invoke ∨ ev.stage = Stage.decode ∨
      ev ∈ post := by
  rcases List.mem_append.1 hev with h1 | h1
  · rcases List.mem_append.1 h1 with h2 | h2
    · simp only [opening, List.mem_cons, List.mem_singleton, List.not_mem_nil, or_false] at h2
      rcases h2 with h3 | h3 | h3 <;> subst h3 <;> simp [Event.stage]
    · exact Or.inr (Or.inr (Or.inl (hmid ev h2)))
  · exact Or.inr (Or.inr (Or.inr h1))

theorem Handle_out_congr_ctx {V I : Type} (E : Env V) (s : service V I) (c1 c2 : Context)
    (frame : Bytes) (h : HandlerFunc V I) (o : ServerOptions)
    (hf : frame.length ≠ 0)
    (hh : mapIndex s.handlers (GetServerStream c1).Method = some h)
    (ho : s.opts = some o)
    (hs : c1.stream = c2.stream)
    (hb : h s.svr c1 s.ceps = h s.svr c2 s.ceps) :
    (s.Handle E c1 frame).out = (s.Handle E c2 frame).out := by
  have hh2 : mapIndex s.handlers (GetServerStream c2).Method = some h := by
    simpa [GetServerStream, hs] using hh
  have hinv : invoke E s c1 frame h o = invoke E s c2 frame h o := by
    unfold invoke
    rw [hb]
  have hst : streamAfter E s c1 frame h o = streamAfter E s c2 frame h o := by
    simp only [streamAfter, hb, GetServerStream, hs]
  have hadd : ∀ p, addRspHeader (ctxAfter E s c1 frame h o) p =
      addRspHeader (ctxAfter E s c2 frame h o) p := by
    intro p
    simp [addRspHeader, ctxAfter, GetServerStream, hst]
  rcases hr : (invoke E s c2 frame h o).1 with ⟨rsp, _ | e⟩
  · have hr1 : (invoke E s c1 frame h o).1 = (rsp, none) := by rw [hinv, hr]
    cases hm : (E.GetSerialization o.protocol).Marshal rsp with
    | error e =>
      rw [Handle_of_marshal_error E s c1 frame h o rsp e hf hh ho hr1 hm,
        Handle_of_marshal_error E s c2 frame h o rsp e hf hh2 ho hr hm]
    | ok payload =>
      cases hp : E.protoMarshal (addRspHeader (ctxAfter E s c2 frame h o) payload) with
      | error e =>
        rw [Handle_of_envelope_error E s c1 frame h o rsp e payload hf hh ho hr1 hm
            (by rw [hadd, hp]),
          Handle_of_envelope_error E s c2 frame h o rsp e payload hf hh2 ho hr hm hp]
      | ok rspBuf =>
        cases hc : (E.GetCodec o.protocol).Encode rspBuf with
        | error e =>
          rw [Handle_of_encode_error E s c1 frame h o rsp e payload rspBuf hf hh ho hr1 hm
              (by rw [hadd, hp]) hc,
            Handle_of_encode_error E s c2 frame h o rsp e payload rspBuf hf hh2 ho hr hm hp hc]
        | ok rspbody =>
          rw [Handle_of_success E s c1 frame h o rsp payload rspBuf rspbody hf hh ho hr1 hm
              (by rw [hadd, hp]) hc,
            Handle_of_success E s c2 frame h o rsp payload rspBuf rspbody hf hh2 ho hr hm hp hc]
  · have hr1 : (invoke E s c1 frame h o).1 = (rsp, some e) := by rw [hinv, hr]
    rw [Handle_of_handler_error E s c1 frame h o rsp e hf hh ho hr1,
      Handle_of_handler_error E s c2 frame h o rsp e hf hh2 ho hr]

theorem stream_eq_lastWrite {V I : Type} (d : V → (Option Error × V) × List (Event V I))
    (b : HandlerBody V) :
    ∀ st, b.stream d st = (b.lastWrite d).getD st := by
  induction b with
  | ret rsp err => intro st; rfl
  | dec req next ih =>
    intro st
    simp only [HandlerBody.stream, HandlerBody.lastWrite]
    exact ih _ _ st
  | setStream st1 next ih =>
    intro st
    simp only [HandlerBody.stream, HandlerBody.lastWrite, ih st1]
    cases next.lastWrite d <;> rfl

theorem streamAfter_of_keepsStream {V I : Type} (E : Env V) (s : service V I)
    (ctx : Context) (frame : Bytes) (h : HandlerFunc V I) (o : ServerOptions)
    (hk : (h s.svr ctx s.ceps).keepsStream) :
    streamAfter E s ctx frame h o = GetServerStream ctx :=
  stream_of_keepsStream _ _ hk _

theorem ctxAfter_of_keepsStream {V I : Type} (E : Env V) (s : service V I)
    (ctx : Context) (frame : Bytes) (h : HandlerFunc V I) (o : ServerOptions)
    (hk : (h s.svr ctx s.ceps).keepsStream) :
    ctxAfter E s ctx frame h o = ctx := by
  simp only [ctxAfter, streamAfter_of_keepsStream E s ctx frame h o hk, GetServerStream]

/-! ## The claims -/

/-- C1. For every service (any handler map, any options, set or nil), every context
and every frame of length 0, `Handle` returns no bytes and the error "req is nil",
and makes no external call at all: no handler, no codec, no serialization. -/
theorem Handle_empty_frame {V I : Type} (E : Env V) (s : service V I) (ctx : Context)
    (frame : Bytes) (hf : frame.length = 0) :
    s.Handle E ctx frame = ⟨.ret none (some (errorsNew "req is nil")), []⟩ := by
  simp [service.Handle, hf]

/-- Witness of C1: the empty frame sent to the demo service. -/
theorem Handle_empty_frame_witness :
    ([] : Bytes).length = 0 ∧
    demoService.Handle (demoEnv framedCodec) (callCtx "Echo") [] =
      ⟨.ret none (some (errorsNew "req is nil")), []⟩ :=
  ⟨rfl, Handle_empty_frame (demoEnv framedCodec) demoService (callCtx "Echo") [] rfl⟩

/-- C2. For every non-empty frame and every context whose stream names a method
without an entry in the handler map of the service (the map may be nil), `Handle`
returns no bytes and the error "handlers is nil", and makes no external call: no
handler is invoked. -/
theorem Handle_unregistered_method {V I : Type} (E : Env V) (s : service V I)
    (ctx : Context) (frame : Bytes) (hf : frame.length ≠ 0)
    (hm : mapEntry s.handlers (GetServerStream ctx).Method = none) :
    s.Handle E ctx frame = ⟨.ret none (some (errorsNew "handlers is nil")), []⟩ := by
  simp [service.Handle, hf, mapIndex, hm]

/-- Witness of C2: a call resolved to "Missing", which the demo service never
registered. -/
theorem Handle_unregistered_method_witness :
    ([0x7e, 0x0a, 2, 104, 105] : Bytes).length ≠ 0 ∧
    mapEntry demoService.handlers (GetServerStream (callCtx "Missing")).Method = none ∧
    demoService.Handle (demoEnv framedCodec) (callCtx "Missing") [0x7e, 0x0a, 2, 104, 105] =
      ⟨.ret none (some (errorsNew "handlers is nil")), []⟩ :=
  ⟨by decide, rfl,
    Handle_unregistered_method (demoEnv framedCodec) demoService (callCtx "Missing")
      [0x7e, 0x0a, 2, 104, 105] (by decide) rfl⟩

/-- C8. `Register name handler` inserts or overwrites: whatever the service state
(the map may still be nil), afterwards the map is allocated, holds `handler` under
`name`, holds `name` exactly once among its keys (keys are unique), holds under every
other name what it held before, and every other field of the service is unchanged. -/
theorem Register_inserts_or_overwrites {V I : Type} (s : service V I) (name : String)
    (handler : Handler V I) :
    mapEntry (s.Register name handler).handlers name = some handler ∧
    (∀ other, other ≠ name →
      mapEntry (s.Register name handler).handlers other = mapEntry s.handlers other) ∧
    (∃ m, (s.Register name handler).handlers = some m ∧ m.keys.Nodup ∧
      m.keys.count name = 1) ∧
    (s.Register name handler).svr = s.svr ∧
    (s.Register name handler).ctx = s.ctx ∧
    (s.Register name handler).cancel = s.cancel ∧
    (s.Register name handler).serviceName = s.serviceName ∧
    (s.Register name handler).opts = s.opts ∧
    (s.Register name handler).ceps = s.ceps := by
  refine ⟨mapEntry_Register_self s name handler,
    fun other hne => mapEntry_Register_other s name other handler hne, ?_, ?_⟩
  · cases hm : s.handlers with
    | none =>
      refine ⟨(∅ : AList _).insert name handler, by simp [service.Register, hm],
        AList.keys_nodup _, ?_⟩
      exact List.count_eq_one_of_mem (AList.keys_nodup _)
        (AList.mem_keys.1 ((AList.mem_insert _).2 (Or.inl rfl)))
    | some m =>
      refine ⟨m.insert name handler, by simp [service.Register, hm],
        AList.keys_nodup _, ?_⟩
      exact List.count_eq_one_of_mem (AList.keys_nodup _)
        (AList.mem_keys.1 ((AList.mem_insert _).2 (Or.inl rfl)))
  · cases hm : s.handlers <;> simp [service.Register, hm]

/-- Witness of C8: registering a second handler under "Echo" on the demo service
replaces the first and leaves "Fail" as it was. -/
theorem Register_inserts_or_overwrites_witness :
    "Fail" ≠ "Echo" ∧
    mapEntry (demoService.Register "Echo" none).handlers "Fail" =
      mapEntry demoService.handlers "Fail" :=
  ⟨by decide,
    (Register_inserts_or_overwrites demoService "Echo" none).2.1 "Fail" (by decide)⟩

/-- Counterexample to C3 as stated. A pair whose handler is the nil func can be
registered; `Handle` then treats the name as not registered and invokes nothing.
And on a service whose `opts` is still nil, `Handle` panics on `s.opts.protocol`
before the registered handler is invoked. -/
theorem Handle_registered_not_invoked :
    mapEntry nilService.handlers "Nil" = some none ∧
    nilService.Handle (demoEnv framedCodec) (callCtx "Nil") hiFrame =
      ⟨.ret none (some (errorsNew "handlers is nil")), []⟩ ∧
    handlerCalls (nilService.Handle (demoEnv framedCodec) (callCtx "Nil") hiFrame).trace = [] ∧
    (mapEntry unservedService.handlers "Echo").isSome = true ∧
    unservedService.Handle (demoEnv framedCodec) (callCtx "Echo") hiFrame = ⟨.panic, []⟩ ∧
    handlerCalls
      (unservedService.Handle (demoEnv framedCodec) (callCtx "Echo") hiFrame).trace = [] :=
  ⟨rfl, rfl, rfl, rfl, rfl, rfl⟩

/-- C3, amended. For every pair `(name, h)` registered in a service with `h` a
non-nil handler, on a service whose options are set, and every non-empty frame:
`Handle` called with a context whose stream resolves to `name` makes exactly one
handler call, the call of the entry under `name` on the business object of the
service, the very context `Handle` was given and the interceptor chain of the
service; the calls it makes are the opening ones, then those of `h` run on these
arguments, then calls that are neither handler calls nor decode calls; and the
whole dispatch is the one of the service in which `(name, h)` is the only pair
registered, so no other registered handler takes part. -/
theorem Handle_invokes_registered_handler {V I : Type} (E : Env V) (s : service V I)
    (ctx : Context) (frame : Bytes) (name : String) (h : HandlerFunc V I)
    (o : ServerOptions)
    (hf : frame.length ≠ 0)
    (hn : (GetServerStream ctx).Method = name)
    (hreg : mapEntry s.handlers name = some (some h))
    (ho : s.opts = some o) :
    handlerCalls (s.Handle E ctx frame).trace = [Event.handler name s.svr ctx s.ceps] ∧
    (∃ post : List (Event V I),
      (s.Handle E ctx frame).trace =
        opening s ctx o ++ (invoke E s ctx frame h o).2 ++ post ∧
      ∀ e ∈ post, e.stage ≠ Stage.invoke ∧ e.stage ≠ Stage.decode) ∧
    s.Handle E ctx frame =
      (({ s with handlers := none } : service V I).Register name (some h)).Handle E ctx frame := by
  subst hn
  have hh : mapIndex s.handlers (GetServerStream ctx).Method = some h :=
    mapIndex_of_entry _ _ _ hreg
  obtain ⟨post, ht, hp⟩ := Handle_dispatch_shape E s ctx frame h o hf hh ho
  have hpost := closing_stage post hp
  refine ⟨?_, ⟨post, ht, ?_⟩, ?_⟩
  · rw [ht]
    exact handlerCalls_dispatch s ctx o _ post (invoke_trace_decode E s ctx frame h o) hpost
  · intro e he
    rcases hpost e he with h1 | h1 | h1 <;> simp [h1]
  · apply Handle_congr
    · rw [hh]
      exact (mapIndex_of_entry _ _ _ (mapEntry_Register_self _ _ _)).symm
    · simp [service.Register]
    · simp [service.Register]
    · simp [service.Register]

/-- Witness of C3, amended: the call resolved to "Echo" on the demo service. -/
theorem Handle_invokes_registered_handler_witness :
    handlerCalls (demoService.Handle (demoEnv framedCodec) (callCtx "Echo") hiFrame).trace =
      [Event.handler "Echo" "svr" (callCtx "Echo") ["recover"]] :=
  (Handle_invokes_registered_handler (demoEnv framedCodec) demoService (callCtx "Echo")
    hiFrame "Echo" (echoHandler "") demoOpts (by decide) rfl rfl rfl).1

/-- Counterexample to C4 as stated. The handler returns "hi" without error and the
three encode stages succeed, yet the bytes `Handle` returns are not the encoding of
the envelope with `RetCode = 0`: the context's stream carries 5, "busy", and that
is what the envelope carries. And with a stream that carries 0 on entry, a handler
that writes the status 7, "late" before it returns makes the envelope carry 7. -/
theorem Handle_response_status_not_zero :
    (invoke (demoEnv framedCodec) demoService busyCtx hiFrame (echoHandler "") demoOpts).1 =
      ("hi", none) ∧
    stringSerialization.Marshal "hi" = .ok [104, 105] ∧
    marshalResponse { Payload := [104, 105], RetCode := 0, RetMsg := "" } =
      .ok [0, 0, 104, 105] ∧
    framedCodec.Encode [0, 0, 104, 105] = .ok [0x7e, 0, 0, 104, 105] ∧
    (demoService.Handle (demoEnv framedCodec) busyCtx hiFrame).out =
      .ret (some [0x7e, 5, 4, 98, 117, 115, 121, 104, 105]) none ∧
    (demoService.Handle (demoEnv framedCodec) busyCtx hiFrame).out ≠
      .ret (some [0x7e, 0, 0, 104, 105]) none ∧
    Event.protoMarshal { Payload := [104, 105], RetCode := 5, RetMsg := "busy" } ∈
      (demoService.Handle (demoEnv framedCodec) busyCtx hiFrame).trace ∧
    (invoke (demoEnv framedCodec) markingService (callCtx "Mark") hiFrame
      (markingHandler "") demoOpts).1 = ("hi", none) ∧
    (GetServerStream (callCtx "Mark")).RetCode = 0 ∧
    (markingService.Handle (demoEnv framedCodec) (callCtx "Mark") hiFrame).out =
      .ret (some [0x7e, 7, 4, 108, 97, 116, 101, 104, 105]) none ∧
    Event.protoMarshal { Payload := [104, 105], RetCode := 7, RetMsg := "late" } ∈
      (markingService.Handle (demoEnv framedCodec) (callCtx "Mark") hiFrame).trace := by
  refine ⟨rfl, rfl, rfl, rfl, rfl, by decide, by decide, rfl, rfl, rfl, by decide⟩

/-- C4, amended. For every non-empty frame dispatched to a registered non-nil
handler of a service whose options are set, when the handler returns `rsp` without
error and serialization `Marshal`, envelope marshal and codec `Encode` all succeed,
`Handle` returns, with no error, exactly
`Encode (marshalEnvelope (Response (Marshal rsp) RetCode RetMsg))` where `RetCode`
and `RetMsg` are those the stream record of the context holds when the handler has
returned; that envelope is the one handed to the envelope marshal. The record then
holds what the handler last wrote into it, and what it held when `Handle` was
called if the handler wrote nothing. `RetCode` is 0 only when the record then
holds 0. -/
theorem Handle_success_response {V I : Type} (E : Env V) (s : service V I)
    (ctx : Context) (frame : Bytes) (h : HandlerFunc V I) (o : ServerOptions) (rsp : V)
    (payload rspBuf rspbody : Bytes)
    (hf : frame.length ≠ 0)
    (hreg : mapEntry s.handlers (GetServerStream ctx).Method = some (some h))
    (ho : s.opts = some o)
    (hr : (invoke E s ctx frame h o).1 = (rsp, none))
    (hm : (E.GetSerialization o.protocol).Marshal rsp = .ok payload)
    (hp : E.protoMarshal
      { Payload := payload, RetCode := (streamAfter E s ctx frame h o).RetCode,
        RetMsg := (streamAfter E s ctx frame h o).RetMsg } = .ok rspBuf)
    (hc : (E.GetCodec o.protocol).Encode rspBuf = .ok rspbody) :
    (s.Handle E ctx frame).out = .ret (some rspbody) none ∧
    Event.protoMarshal
      { Payload := payload, RetCode := (streamAfter E s ctx frame h o).RetCode,
        RetMsg := (streamAfter E s ctx frame h o).RetMsg } ∈ (s.Handle E ctx frame).trace ∧
    ((h s.svr ctx s.ceps).keepsStream →
      streamAfter E s ctx frame h o = GetServerStream ctx) ∧
    streamAfter E s ctx frame h o =
      ((h s.svr ctx s.ceps).lastWrite (callback I E o frame)).getD (GetServerStream ctx) := by
  have hh : mapIndex s.handlers (GetServerStream ctx).Method = some h :=
    mapIndex_of_entry _ _ _ hreg
  rw [Handle_of_success E s ctx frame h o rsp payload rspBuf rspbody hf hh ho hr hm hp hc]
  refine ⟨rfl, ?_, streamAfter_of_keepsStream E s ctx frame h o, ?_⟩
  · simp [addRspHeader, ctxAfter, GetServerStream]
  · exact stream_eq_lastWrite _ _ _

/-- Witness of C4, amended: the call resolved to "Mark", whose handler writes the
status 7, "late" into a stream record that carried 0 on entry. -/
theorem Handle_success_response_witness :
    (markingService.Handle (demoEnv framedCodec) (callCtx "Mark") hiFrame).out =
      .ret (some [0x7e, 7, 4, 108, 97, 116, 101, 104, 105]) none :=
  (Handle_success_response (demoEnv framedCodec) markingService (callCtx "Mark") hiFrame
    (markingHandler "") demoOpts "hi" [104, 105] [7, 4, 108, 97, 116, 101, 104, 105]
    [0x7e, 7, 4, 108, 97, 116, 101, 104, 105] (by decide) rfl rfl rfl rfl rfl rfl).1

/-- Counterexample to C5 as stated. The handler under "Fail" returns an application
error; `Handle` returns that error and nil bytes, so there is no response frame at
all, and no envelope was built or encoded. -/
theorem Handle_handler_error_drops_frame :
    (invoke (demoEnv framedCodec) demoService (callCtx "Fail") hiFrame
      (failHandler "" (errorsNew "boom")) demoOpts).1 = ("", some (errorsNew "boom")) ∧
    demoService.Handle (demoEnv framedCodec) (callCtx "Fail") hiFrame =
      ⟨.ret none (some (errorsNew "boom")),
        [.getCodec "proto", .getSerialization "proto",
          .handler "Fail" "svr" (callCtx "Fail") ["recover"]]⟩ ∧
    ¬ ∃ b e, (demoService.Handle (demoEnv framedCodec) (callCtx "Fail") hiFrame).out =
      .ret (some b) e := by
  refine ⟨rfl, rfl, ?_⟩
  rintro ⟨b, e, h⟩
  have h2 : (demoService.Handle (demoEnv framedCodec) (callCtx "Fail") hiFrame).out =
      .ret none (some (errorsNew "boom")) := rfl
  rw [h2] at h
  cases h

/-- C5, amended. For every non-empty frame dispatched to a registered non-nil
handler of a service whose options are set, when the handler returns an
application error `Handle` returns that same error and nil bytes, and makes no
call after the handler has returned: no response envelope is built, marshalled or
encoded. -/
theorem Handle_handler_error_returned {V I : Type} (E : Env V) (s : service V I)
    (ctx : Context) (frame : Bytes) (h : HandlerFunc V I) (o : ServerOptions) (rsp : V)
    (e : Error)
    (hf : frame.length ≠ 0)
    (hreg : mapEntry s.handlers (GetServerStream ctx).Method = some (some h))
    (ho : s.opts = some o)
    (hr : (invoke E s ctx frame h o).1 = (rsp, some e)) :
    (s.Handle E ctx frame).out = .ret none (some e) ∧
    (s.Handle E ctx frame).trace = opening s ctx o ++ (invoke E s ctx frame h o).2 := by
  have hh : mapIndex s.handlers (GetServerStream ctx).Method = some h :=
    mapIndex_of_entry _ _ _ hreg
  rw [Handle_of_handler_error E s ctx frame h o rsp e hf hh ho hr]
  exact ⟨rfl, rfl⟩

/-- Witness of C5, amended: the call resolved to "Fail" on the demo service. -/
theorem Handle_handler_error_returned_witness :
    (demoService.Handle (demoEnv framedCodec) (callCtx "Fail") hiFrame).out =
      .ret none (some (errorsNew "boom")) :=
  (Handle_handler_error_returned (demoEnv framedCodec) demoService (callCtx "Fail") hiFrame
    (failHandler "" (errorsNew "boom")) demoOpts "" (errorsNew "boom") (by decide) rfl rfl
    rfl).1

/-- Counterexample to C6 as stated. With a context that is already canceled, and
with one whose deadline has passed, `Handle` does not fail: the registered handler
is invoked with that context and the response frame is returned without error. -/
theorem Handle_ignores_cancellation :
    canceledCtx.err = some Canceled ∧
    (demoService.Handle (demoEnv framedCodec) canceledCtx hiFrame).out =
      .ret (some [0x7e, 0, 0, 104, 105]) none ∧
    handlerCalls (demoService.Handle (demoEnv framedCodec) canceledCtx hiFrame).trace =
      [Event.handler "Echo" "svr" canceledCtx ["recover"]] ∧
    expiredCtx.err = some DeadlineExceeded ∧
    (demoService.Handle (demoEnv framedCodec) expiredCtx hiFrame).out =
      .ret (some [0x7e, 0, 0, 104, 105]) none ∧
    handlerCalls (demoService.Handle (demoEnv framedCodec) expiredCtx hiFrame).trace =
      [Event.handler "Echo" "svr" expiredCtx ["recover"]] :=
  ⟨rfl, rfl, rfl, rfl, rfl, rfl⟩

/-- C6, amended. `Handle` makes no cancellation or deadline check of its own. For
every non-empty frame and every registered non-nil handler of a service whose
options are set, if the context passed to `Handle` is already canceled or past its
deadline, the handler is still invoked, exactly once and with that context, and
`Handle` returns what the handler and the encode stages produce: the error of the
handler if it returns one; otherwise the error of the first of serialization
`Marshal`, envelope marshal and codec `Encode` that fails; otherwise the response
frame. What `Handle` returns is what it returns for a live context with the same
stream, unless the handler itself tells the two contexts apart. -/
theorem Handle_canceled_context_dispatches {V I : Type} (E : Env V) (s : service V I)
    (ctx : Context) (frame : Bytes) (h : HandlerFunc V I) (o : ServerOptions)
    (hf : frame.length ≠ 0)
    (hreg : mapEntry s.handlers (GetServerStream ctx).Method = some (some h))
    (ho : s.opts = some o)
    (_hc : ctx.err ≠ none) :
    handlerCalls (s.Handle E ctx frame).trace =
      [Event.handler (GetServerStream ctx).Method s.svr ctx s.ceps] ∧
    (∀ rsp e, (invoke E s ctx frame h o).1 = (rsp, some e) →
      (s.Handle E ctx frame).out = .ret none (some e)) ∧
    (∀ rsp e, (invoke E s ctx frame h o).1 = (rsp, none) →
      (E.GetSerialization o.protocol).Marshal rsp = .error e →
      (s.Handle E ctx frame).out = .ret none (some e)) ∧
    (∀ rsp payload e, (invoke E s ctx frame h o).1 = (rsp, none) →
      (E.GetSerialization o.protocol).Marshal rsp = .ok payload →
      E.protoMarshal (addRspHeader (ctxAfter E s ctx frame h o) payload) = .error e →
      (s.Handle E ctx frame).out = .ret none (some e)) ∧
    (∀ rsp payload rspBuf e, (invoke E s ctx frame h o).1 = (rsp, none) →
      (E.GetSerialization o.protocol).Marshal rsp = .ok payload →
      E.protoMarshal (addRspHeader (ctxAfter E s ctx frame h o) payload) = .ok rspBuf →
      (E.GetCodec o.protocol).Encode rspBuf = .error e →
      (s.Handle E ctx frame).out = .ret none (some e)) ∧
    (∀ rsp payload rspBuf rspbody, (invoke E s ctx frame h o).1 = (rsp, none) →
      (E.GetSerialization o.protocol).Marshal rsp = .ok payload →
      E.protoMarshal (addRspHeader (ctxAfter E s ctx frame h o) payload) = .ok rspBuf →
      (E.GetCodec o.protocol).Encode rspBuf = .ok rspbody →
      (s.Handle E ctx frame).out = .ret (some rspbody) none) ∧
    (∀ live : Context, live.err = none → live.stream = ctx.stream →
      h s.svr live s.ceps = h s.svr ctx s.ceps →
      (s.Handle E ctx frame).out = (s.Handle E live frame).out) := by
  have hh : mapIndex s.handlers (GetServerStream ctx).Method = some h :=
    mapIndex_of_entry _ _ _ hreg
  refine ⟨?_, ?_, ?_, ?_, ?_, ?_, ?_⟩
  · obtain ⟨post, ht, hp⟩ := Handle_dispatch_shape E s ctx frame h o hf hh ho
    rw [ht]
    exact handlerCalls_dispatch s ctx o _ post (invoke_trace_decode E s ctx frame h o)
      (closing_stage post hp)
  · intro rsp e hr
    rw [Handle_of_handler_error E s ctx frame h o rsp e hf hh ho hr]
  · intro rsp e hr hm
    rw [Handle_of_marshal_error E s ctx frame h o rsp e hf hh ho hr hm]
  · intro rsp payload e hr hm hp
    rw [Handle_of_envelope_error E s ctx frame h o rsp e payload hf hh ho hr hm hp]
  · intro rsp payload rspBuf e hr hm hp hc
    rw [Handle_of_encode_error E s ctx frame h o rsp e payload rspBuf hf hh ho hr hm hp hc]
  · intro rsp payload rspBuf rspbody hr hm hp hc
    rw [Handle_of_success E s ctx frame h o rsp payload rspBuf rspbody hf hh ho hr hm hp hc]
  · intro live _ hs hb
    exact Handle_out_congr_ctx E s ctx live frame h o hf hh ho hs.symm hb.symm

/-- Witness of C6, amended: the echo call under the canceled context. -/
theorem Handle_canceled_context_dispatches_witness :
    canceledCtx.err ≠ none ∧
    handlerCalls (demoService.Handle (demoEnv framedCodec) canceledCtx hiFrame).trace =
      [Event.handler "Echo" "svr" canceledCtx ["recover"]] :=
  ⟨by decide,
    (Handle_canceled_context_dispatches (demoEnv framedCodec) demoService canceledCtx hiFrame
      (echoHandler "") demoOpts (by decide) rfl rfl (by decide)).1⟩

/-- C9. Within one `Handle` call the stages outside the decode callback run in the
fixed order registry lookups, handler, serialization `Marshal`, envelope marshal,
codec `Encode`, and the first stage that fails ends the call: whenever `Handle`
returns a non-nil error the returned bytes are nil; if the handler returns an
error, `Handle` returns that same error and makes no `Marshal`, envelope marshal
or `Encode` call; if `Marshal` fails, `Handle` returns its error and makes no
envelope marshal or `Encode` call; if the envelope marshal fails, `Handle` returns
its error and makes no `Encode` call. -/
theorem Handle_stages_short_circuit {V I : Type} (E : Env V) (s : service V I)
    (ctx : Context) (frame : Bytes) :
    stagesOutsideDecode (s.Handle E ctx frame).trace <+:
      [Stage.lookup, Stage.lookup, Stage.invoke, Stage.marshal, Stage.envelope,
        Stage.encode] ∧
    (∀ b e, (s.Handle E ctx frame).out = .ret b (some e) → b = none) ∧
    (∀ h o rsp e, frame.length ≠ 0 →
      mapIndex s.handlers (GetServerStream ctx).Method = some h → s.opts = some o →
      (invoke E s ctx frame h o).1 = (rsp, some e) →
      (s.Handle E ctx frame).out = .ret none (some e) ∧
      ∀ ev ∈ (s.Handle E ctx frame).trace,
        ev.stage ≠ Stage.marshal ∧ ev.stage ≠ Stage.envelope ∧ ev.stage ≠ Stage.encode) ∧
    (∀ h o rsp e, frame.length ≠ 0 →
      mapIndex s.handlers (GetServerStream ctx).Method = some h → s.opts = some o →
      (invoke E s ctx frame h o).1 = (rsp, none) →
      (E.GetSerialization o.protocol).Marshal rsp = .error e →
      (s.Handle E ctx frame).out = .ret none (some e) ∧
      ∀ ev ∈ (s.Handle E ctx frame).trace,
        ev.stage ≠ Stage.envelope ∧ ev.stage ≠ Stage.encode) ∧
    (∀ h o rsp payload e, frame.length ≠ 0 →
      mapIndex s.handlers (GetServerStream ctx).Method = some h → s.opts = some o →
      (invoke E s ctx frame h o).1 = (rsp, none) →
      (E.GetSerialization o.protocol).Marshal rsp = .ok payload →
      E.protoMarshal (addRspHeader (ctxAfter E s ctx frame h o) payload) = .error e →
      (s.Handle E ctx frame).out = .ret none (some e) ∧
      ∀ ev ∈ (s.Handle E ctx frame).trace, ev.stage ≠ Stage.encode) := by
  refine ⟨Handle_stage_order E s ctx frame,
    fun b e hout => Handle_error_no_bytes E s ctx frame b e hout, ?_, ?_, ?_⟩
  · intro h o rsp e hf hh ho hr
    rw [Handle_of_handler_error E s ctx frame h o rsp e hf hh ho hr]
    refine ⟨rfl, fun ev hev => ?_⟩
    have hev2 : ev ∈ opening s ctx o ++ (invoke E s ctx frame h o).2 ++ [] := by
      simpa using hev
    rcases mem_dispatch_stage s ctx o _ [] (invoke_trace_decode E s ctx frame h o) ev hev2
      with h1 | h1 | h1 | h1
    · simp [h1]
    · simp [h1]
    · simp [h1]
    · simp at h1
  · intro h o rsp e hf hh ho hr hm
    rw [Handle_of_marshal_error E s ctx frame h o rsp e hf hh ho hr hm]
    refine ⟨rfl, fun ev hev => ?_⟩
    rcases mem_dispatch_stage s ctx o _ _ (invoke_trace_decode E s ctx frame h o) ev hev
      with h1 | h1 | h1 | h1
    · simp [h1]
    · simp [h1]
    · simp [h1]
    · simp only [List.mem_singleton] at h1
      subst h1
      simp [Event.stage]
  · intro h o rsp payload e hf hh ho hr hm hp
    rw [Handle_of_envelope_error E s ctx frame h o rsp e payload hf hh ho hr hm hp]
    refine ⟨rfl, fun ev hev => ?_⟩
    rcases mem_dispatch_stage s ctx o _ _ (invoke_trace_decode E s ctx frame h o) ev hev
      with h1 | h1 | h1 | h1
    · simp [h1]
    · simp [h1]
    · simp [h1]
    · simp only [List.mem_cons, List.mem_singleton, List.not_mem_nil, or_false] at h1
      rcases h1 with h2 | h2 <;> subst h2 <;> simp [Event.stage]

/-- Witness of C9: the handler under "Fail" returns an error, and `Handle` returns
it without bytes. -/
theorem Handle_stages_short_circuit_witness :
    (demoService.Handle (demoEnv framedCodec) (callCtx "Fail") hiFrame).out =
      .ret none (some (errorsNew "boom")) :=
  ((Handle_stages_short_circuit (demoEnv framedCodec) demoService (callCtx "Fail")
    hiFrame).2.2.1 (failHandler "" (errorsNew "boom")) demoOpts "" (errorsNew "boom")
    (by decide) rfl rfl rfl).1

/-- Counterexample to C10 as stated. The codec `Decode` fails, so the callback
returns an error; the handler ignores it, and `Handle` neither aborts nor reports
the failure: it returns a response frame and a nil error. And the error the
callback returns carries no mark of the stage: a failing `Decode` and a failing
serialization `Unmarshal` hand the handler the same error value. -/
theorem Handle_decode_failure_not_reported :
    callback (List String) (demoEnv brokenCodec) demoOpts hiFrame "" =
      ((some (errorsNew "decode failed"), ""), [.codecDecode hiFrame]) ∧
    carelessService.Handle (demoEnv brokenCodec) (callCtx "Careless") hiFrame =
      ⟨.ret (some [0, 0, 100, 111, 110, 101]) none,
        [.getCodec "proto", .getSerialization "proto",
          .handler "Careless" "svr" (callCtx "Careless") ["recover"],
          .codecDecode hiFrame,
          .serMarshal "done",
          .protoMarshal { Payload := [100, 111, 110, 101], RetCode := 0, RetMsg := "" },
          .codecEncode [0, 0, 100, 111, 110, 101]]⟩ ∧
    callback (List String) (demoEnvWith plainCodec refusingSerialization) demoOpts
      plainHiFrame "" =
      ((some (errorsNew "decode failed"), ""),
        [.codecDecode plainHiFrame, .protoUnmarshal plainHiFrame,
          .serUnmarshal [104, 105] ""]) :=
  ⟨rfl, rfl, rfl⟩

/-- C10, amended. The decode callback that `Handle` passes to the handler is lazy
and three-staged. For a non-empty frame and a registered non-nil handler of a
service whose options are set: the decode calls in the trace of `Handle` are
exactly those made by the handler's calls of the callback, so a handler that
returns without calling it causes none; when the handler calls the callback, it is
resumed with the error and the target the callback produced. A call of the
callback runs codec `Decode` of the frame, then the unmarshal into the `Request`
envelope, then the serialization `Unmarshal` of the envelope's payload into the
target, in that order; when a stage fails it returns that stage's own error,
unchanged, without running a later stage, and it returns nil exactly when all three
succeed. The error goes to the handler: whether the dispatch is aborted is the
handler's decision. -/
theorem dec_lazy_three_stages {V I : Type} (E : Env V) (s : service V I)
    (ctx : Context) (frame : Bytes) (h : HandlerFunc V I) (o : ServerOptions)
    (hf : frame.length ≠ 0)
    (hreg : mapEntry s.handlers (GetServerStream ctx).Method = some (some h))
    (ho : s.opts = some o) :
    decodeCalls (s.Handle E ctx frame).trace = (invoke E s ctx frame h o).2 ∧
    (∀ rsp err, h s.svr ctx s.ceps = .ret rsp err →
      decodeCalls (s.Handle E ctx frame).trace = []) ∧
    (∀ req next, h s.svr ctx s.ceps = .dec req next →
      invoke E s ctx frame h o =
        ((HandlerBody.run (callback I E o frame)
            (next (callback I E o frame req).1.1 (callback I E o frame req).1.2)).1,
          (callback I E o frame req).2 ++
            (HandlerBody.run (callback I E o frame)
              (next (callback I E o frame req).1.1 (callback I E o frame req).1.2)).2)) ∧
    (∀ req err, (E.GetCodec o.protocol).Decode frame = .error err →
      callback I E o frame req = ((some err, req), [.codecDecode frame])) ∧
    (∀ req reqbuf err, (E.GetCodec o.protocol).Decode frame = .ok reqbuf →
      E.protoUnmarshal reqbuf = .error err →
      callback I E o frame req =
        ((some err, req), [.codecDecode frame, .protoUnmarshal reqbuf])) ∧
    (∀ req reqbuf request, (E.GetCodec o.protocol).Decode frame = .ok reqbuf →
      E.protoUnmarshal reqbuf = .ok request →
      callback I E o frame req =
        ((E.GetSerialization o.protocol).Unmarshal request.Payload req,
          [.codecDecode frame, .protoUnmarshal reqbuf,
            .serUnmarshal request.Payload req])) ∧
    (∀ req, (callback I E o frame req).1.1 = none ↔
      ∃ reqbuf request, (E.GetCodec o.protocol).Decode frame = .ok reqbuf ∧
        E.protoUnmarshal reqbuf = .ok request ∧
        ((E.GetSerialization o.protocol).Unmarshal request.Payload req).1 = none) := by
  have hh : mapIndex s.handlers (GetServerStream ctx).Method = some h :=
    mapIndex_of_entry _ _ _ hreg
  obtain ⟨post, ht, hp⟩ := Handle_dispatch_shape E s ctx frame h o hf hh ho
  have hd : decodeCalls (s.Handle E ctx frame).trace = (invoke E s ctx frame h o).2 := by
    rw [ht]
    exact decodeCalls_dispatch s ctx o _ post (invoke_trace_decode E s ctx frame h o)
      (closing_stage post hp)
  have h3 : ∀ req reqbuf request, (E.GetCodec o.protocol).Decode frame = .ok reqbuf →
      E.protoUnmarshal reqbuf = .ok request →
      callback I E o frame req =
        ((E.GetSerialization o.protocol).Unmarshal request.Payload req,
          [.codecDecode frame, .protoUnmarshal reqbuf,
            .serUnmarshal request.Payload req]) := by
    intro req reqbuf request h1 h2
    rcases hu : (E.GetSerialization o.protocol).Unmarshal request.Payload req with ⟨_ | e, r1⟩ <;>
      simp [callback, dec, h1, h2, hu]
  refine ⟨hd, ?_, ?_, ?_, ?_, h3, ?_⟩
  · intro rsp err hb
    rw [hd]
    simp [invoke, hb, HandlerBody.run]
  · intro req next hb
    unfold invoke
    rw [hb]
    rfl
  · intro req err h1
    simp [callback, dec, h1]
  · intro req reqbuf err h1 h2
    simp [callback, dec, h1, h2]
  · intro req
    constructor
    · intro hnone
      cases h1 : (E.GetCodec o.protocol).Decode frame with
      | error err => simp [callback, dec, h1] at hnone
      | ok reqbuf =>
        cases h2 : E.protoUnmarshal reqbuf with
        | error err => simp [callback, dec, h1, h2] at hnone
        | ok request =>
          rw [h3 req reqbuf request h1 h2] at hnone
          exact ⟨reqbuf, request, rfl, h2, hnone⟩
    · rintro ⟨reqbuf, request, h1, h2, hu⟩
      rw [h3 req reqbuf request h1 h2]
      exact hu

/-- Witness of C10, amended: the echo call on the demo service; its decode calls
are the three stages of the one callback call the handler makes. -/
theorem dec_lazy_three_stages_witness :
    decodeCalls (demoService.Handle (demoEnv framedCodec) (callCtx "Echo") hiFrame).trace =
      [.codecDecode hiFrame, .protoUnmarshal [0x0a, 2, 104, 105],
        .serUnmarshal [104, 105] ""] :=
  (dec_lazy_three_stages (demoEnv framedCodec) demoService (callCtx "Echo") hiFrame
    (echoHandler "") demoOpts (by decide) rfl rfl).1

/-- Counterexample to C7 as stated. The serialization, the codec and the envelope
encoding all round-trip, the frame is the one a client builds for "hi", and the
call succeeds, but the envelope read back has `RetCode = 5`, the status of the
context's stream, not 0. And for the value "", which the serialization supports,
the frame a client builds under the plain codec is empty, and `Handle` rejects it
with "req is nil" instead of echoing. -/
theorem Handle_echo_round_trip_fails :
    requestFrame framedCodec stringSerialization marshalRequest "hi" = .ok hiFrame ∧
    (demoService.Handle (demoEnv framedCodec) busyCtx hiFrame).out =
      .ret (some [0x7e, 5, 4, 98, 117, 115, 121, 104, 105]) none ∧
    readResponse framedCodec unmarshalResponse [0x7e, 5, 4, 98, 117, 115, 121, 104, 105] =
      .ok { Payload := [104, 105], RetCode := 5, RetMsg := "busy" } ∧
    stringSerialization.Marshal "" = .ok [] ∧
    stringSerialization.Unmarshal [] "x" = (none, "") ∧
    requestFrame plainCodec stringSerialization marshalRequest "" = .ok [] ∧
    demoService.Handle (demoEnv plainCodec) (callCtx "Echo") [] =
      ⟨.ret none (some (errorsNew "req is nil")), []⟩ :=
  ⟨rfl, rfl, rfl, rfl, rfl, rfl, rfl⟩

/-- C7, amended. Echo round trip. Let the serialization satisfy
`Unmarshal (Marshal v) = v` at `v`, the codec satisfy `Decode (Encode b) = b`, and
the envelope encoding round-trip on the request and the response in play. Let the
echo handler (it calls the decode callback and returns the decoded input
unchanged) be registered under the method the context resolves to, on a service
whose options are set. Then dispatching the frame
`Encode (marshalEnvelope (Request (Marshal v)))`, provided it is not empty,
succeeds, and reading the returned frame (codec `Decode`, then envelope unmarshal)
gives the `Response` whose payload is `Marshal v` and whose `RetCode` and `RetMsg`
are those of the context's stream (0 when the stream carries 0). -/
theorem Handle_echo_round_trip {V I : Type} (E : Env V) (s : service V I)
    (ctx : Context) (frame : Bytes) (o : ServerOptions) (zero v : V)
    (marshalEnvelope : Request → Except Error Bytes)
    (unmarshalEnvelope : Bytes → Except Error Response)
    (payload reqbuf rspBuf rspbody : Bytes)
    (hreg : mapEntry s.handlers (GetServerStream ctx).Method = some (some (echoHandler zero)))
    (ho : s.opts = some o)
    (hS : ∀ p, (E.GetSerialization o.protocol).Marshal v = .ok p →
      ∀ t, (E.GetSerialization o.protocol).Unmarshal p t = (none, v))
    (hC : ∀ b f, (E.GetCodec o.protocol).Encode b = .ok f →
      (E.GetCodec o.protocol).Decode f = .ok b)
    (hM : (E.GetSerialization o.protocol).Marshal v = .ok payload)
    (hQ : marshalEnvelope { Payload := payload } = .ok reqbuf)
    (hQ2 : E.protoUnmarshal reqbuf = .ok { Payload := payload })
    (hframe : requestFrame (E.GetCodec o.protocol) (E.GetSerialization o.protocol)
      marshalEnvelope v = .ok frame)
    (hf : frame.length ≠ 0)
    (hR : E.protoMarshal (addRspHeader ctx payload) = .ok rspBuf)
    (hR2 : unmarshalEnvelope rspBuf = .ok (addRspHeader ctx payload))
    (hE : (E.GetCodec o.protocol).Encode rspBuf = .ok rspbody) :
    (s.Handle E ctx frame).out = .ret (some rspbody) none ∧
    readResponse (E.GetCodec o.protocol) unmarshalEnvelope rspbody =
      .ok { Payload := payload, RetCode := (GetServerStream ctx).RetCode,
            RetMsg := (GetServerStream ctx).RetMsg } := by
  have hh : mapIndex s.handlers (GetServerStream ctx).Method = some (echoHandler zero) :=
    mapIndex_of_entry _ _ _ hreg
  have hEnc : (E.GetCodec o.protocol).Encode reqbuf = .ok frame := by
    simpa [requestFrame, hM, hQ, Except.bind] using hframe
  have hDec : (E.GetCodec o.protocol).Decode frame = .ok reqbuf := hC _ _ hEnc
  have hd : (dec E (E.GetCodec o.protocol) (E.GetSerialization o.protocol) frame zero :
      (Option Error × V) × List (Event V I)) =
      ((none, v), [.codecDecode frame, .protoUnmarshal reqbuf, .serUnmarshal payload zero]) := by
    simp [dec, hDec, hQ2, hS payload hM zero]
  have hr : (invoke E s ctx frame (echoHandler zero) o).1 = (v, none) := by
    simp [invoke, echoHandler, HandlerBody.run, hd]
  have hk : ((echoHandler zero : HandlerFunc V I) s.svr ctx s.ceps).keepsStream := by
    intro err req
    cases err <;> exact True.intro
  have hR1 : E.protoMarshal
      (addRspHeader (ctxAfter E s ctx frame (echoHandler zero) o) payload) = .ok rspBuf := by
    rw [ctxAfter_of_keepsStream E s ctx frame (echoHandler zero) o hk]
    exact hR
  refine ⟨?_, ?_⟩
  · rw [Handle_of_success E s ctx frame (echoHandler zero) o v payload rspBuf rspbody
      hf hh ho hr hM hR1 hE]
  · simp [readResponse, hC _ _ hE, Except.bind, hR2, addRspHeader]

/-- Witness of C7, amended: `v = "hi"` with the framed codec, the string
serialization and the demo envelope encoding. -/
theorem Handle_echo_round_trip_witness :
    (demoService.Handle (demoEnv framedCodec) (callCtx "Echo") hiFrame).out =
      .ret (some [0x7e, 0, 0, 104, 105]) none ∧
    readResponse framedCodec unmarshalResponse [0x7e, 0, 0, 104, 105] =
      .ok { Payload := [104, 105], RetCode := 0, RetMsg := "" } :=
  Handle_echo_round_trip (demoEnv framedCodec) demoService (callCtx "Echo") hiFrame
    demoOpts "" "hi" marshalRequest unmarshalResponse [104, 105] [0x0a, 2, 104, 105]
    [0, 0, 104, 105] [0x7e, 0, 0, 104, 105] rfl rfl
    (fun p hp t => by cases hp; rfl)
    (fun b f hb => by cases hb; rfl)
    rfl rfl rfl rfl (by decide) rfl rfl rfl

end Gorpc
